import Mathlib

/-!
Verification of the command-execution channel in
src/minisweagent/environments/sidecar.py.

The embedding models the observable behaviour of SidecarEnvironment:
the payload built for one command, the read loop over the nc process
stdout, the marker-based decoding, the returned dict, and cleanup of
the nc subprocess.  Byte strings are modelled as Lean strings; the
observations the read loop would make (wall-clock deadline tests, poll
results, chunks returned by stdout.read) are supplied as an explicit
trace.
-/

/-- Single-quote character (ASCII 39), kept as a named constant. -/
def sqc : Char := Char.ofNat 39

/-- Double-quote character (ASCII 34), kept as a named constant. -/
def dqc : Char := Char.ofNat 34

/-- Single-quote character as a one-character string. -/
def sqs : String := String.mk [sqc]

/-- Completion sentinel echoed after every command and scanned for by the
read loop of execute (sidecar.py lines 85 and 92). -/
def marker : String := "COMMAND_DONE_MARKER"

/-- Whitespace characters removed by the Python str.strip method
(ASCII part: space, tab, newline, vertical tab, form feed, carriage return). -/
def isPySpace (c : Char) : Bool :=
  c = ' ' || c = '\t' || c = '\n' || c = Char.ofNat 11 || c = Char.ofNat 12 || c = '\r'

/-- Embedding of the Python str.strip method: remove leading and trailing
whitespace. -/
def pyStrip (s : String) : String :=
  String.mk (((s.data.dropWhile isPySpace).reverse.dropWhile isPySpace).reverse)

/-- Spec-side definition, written from the words of the spec alone, for
comparison with the code: trim only trailing whitespace, preserving
leading whitespace. -/
def specRstrip (s : String) : String :=
  String.mk ((s.data.reverse.dropWhile isPySpace).reverse)

/-- Decide whether the first list is a prefix of the second. -/
def isPrefixList : List Char → List Char → Bool
  | [], _ => true
  | _ :: _, [] => false
  | a :: as, b :: bs => a = b && isPrefixList as bs

/-- Decide whether the pattern occurs as a contiguous sublist. -/
def containsSub (m : List Char) : List Char → Bool
  | [] => isPrefixList m []
  | c :: cs => isPrefixList m (c :: cs) || containsSub m cs

/-- The Python test: marker in output. -/
def containsMarker (s : String) : Bool := containsSub marker.data s.data

/-- Characters strictly before the first occurrence of the pattern, the
whole list when the pattern is absent. -/
def takeBefore (m : List Char) : List Char → List Char
  | [] => []
  | c :: cs => if isPrefixList m (c :: cs) then [] else c :: takeBefore m cs

/-- Bytes before the first completion marker: the Python expression
output_str.split(marker)[0]. -/
def beforeMarker (s : String) : String := String.mk (takeBefore marker.data s.data)

/-- Decoding step of execute (sidecar.py lines 104 to 107): when the marker
is present, keep the part before it and strip it; otherwise the raw text is
returned unchanged. -/
def decodeOutput (raw : String) : String :=
  if containsMarker raw then pyStrip (beforeMarker raw) else raw

/-- Characters accepted by the fast path of Python shlex.quote: ASCII word
characters and the punctuation at, percent, plus, equals, colon, comma,
dot, slash, dash (regex class with re.ASCII). -/
def isSafeChar (c : Char) : Bool :=
  c.isAlpha || c.isDigit || c = '_' || c = '@' || c = '%' || c = '+' || c = '=' ||
    c = ':' || c = ',' || c = '.' || c = '/' || c = '-'

/-- Replace every single quote by the five-character sequence
quote, dquote, quote, dquote, quote, exactly as the replace call inside
Python shlex.quote does. -/
def quoteChars : List Char → List Char
  | [] => []
  | c :: cs =>
    if c = sqc then sqc :: dqc :: sqc :: dqc :: sqc :: quoteChars cs
    else c :: quoteChars cs

/-- Embedding of Python shlex.quote, used on the working directory at
sidecar.py line 85: the empty string becomes a pair of quotes, a string of
safe characters is returned unchanged, anything else is wrapped in single
quotes with embedded single quotes rewritten. -/
def shlex_quote (s : String) : String :=
  if s.data = [] then String.mk [sqc, sqc]
  else if s.data.all isSafeChar then s
  else String.mk (sqc :: (quoteChars s.data ++ [sqc]))

/-- Scanner mode for reading one shell word: outside quotes, inside single
quotes, inside double quotes. -/
inductive QMode where
  | norm
  | insq
  | indq
deriving DecidableEq

/-- Characters that end a shell word or separate commands when they occur
unquoted. -/
def isWordBreak (c : Char) : Bool :=
  c = ' ' || c = '\t' || c = '\n' || c = ';' || c = '&' || c = '|' ||
    c = '<' || c = '>' || c = '(' || c = ')'

/-- POSIX-style reading of one shell word that must cover the whole input:
returns the word when the entire input forms a single token, and none when
an unquoted separator occurs or a quote is unterminated.  Backslash escapes
never arise in strings produced by shlex_quote, so backslash is treated as
an ordinary character. -/
def scanWord : QMode → List Char → List Char → Option (List Char)
  | QMode.norm, [], acc => some acc.reverse
  | QMode.insq, [], _ => none
  | QMode.indq, [], _ => none
  | QMode.norm, c :: cs, acc =>
    if c = sqc then scanWord QMode.insq cs acc
    else if c = dqc then scanWord QMode.indq cs acc
    else if isWordBreak c then none
    else scanWord QMode.norm cs (c :: acc)
  | QMode.insq, c :: cs, acc =>
    if c = sqc then scanWord QMode.norm cs acc
    else scanWord QMode.insq cs (c :: acc)
  | QMode.indq, c :: cs, acc =>
    if c = dqc then scanWord QMode.norm cs acc
    else scanWord QMode.indq cs (c :: acc)

/-- Configuration fields of SidecarEnvironmentConfig that execute reads. -/
structure SidecarEnvironmentConfig where
  cwd : String
  timeout : Int
deriving DecidableEq

/-- Default configuration values from SidecarEnvironmentConfig. -/
def defaultConfig : SidecarEnvironmentConfig := ⟨"/", 30⟩

/-- Observable state of a SidecarEnvironment: the nc subprocess handle,
identified by a numeric id, or none when never started or cleared. -/
structure EnvState where
  nc_process : Option Nat
deriving DecidableEq

/-- One iteration of the read loop as observed from outside: whether the
wall clock was still within the timeout at the loop head, the result of
poll, and the chunk returned by stdout.read (the empty chunk models end of
stream). -/
structure LoopStep where
  withinDeadline : Bool
  pollResult : Option Int
  chunk : String
deriving DecidableEq

/-- Why the read loop stopped. -/
inductive StopReason where
  | deadline
  | procEnded
  | eof
  | markerFound
  | traceEnded
deriving DecidableEq

/-- The read loop of execute (sidecar.py lines 91 to 102) over an
observation trace: accumulate chunks until the marker appears in the
accumulated output, the process ends, a read returns no data, or the
deadline test at the loop head fails. -/
def readLoop : List LoopStep → String → String × StopReason
  | [], acc => (acc, StopReason.traceEnded)
  | step :: rest, acc =>
    if step.withinDeadline = false then (acc, StopReason.deadline)
    else if step.pollResult.isSome then (acc, StopReason.procEnded)
    else if step.chunk = "" then (acc, StopReason.eof)
    else if containsMarker (acc ++ step.chunk) then (acc ++ step.chunk, StopReason.markerFound)
    else readLoop rest (acc ++ step.chunk)

/-- Payload written for one command, exactly as the f-string at sidecar.py
line 85 builds it. -/
def full_command (command cwd : String) : String :=
  "cd " ++ shlex_quote cwd ++ "; " ++ command ++ "; echo " ++ sqs ++ "COMMAND_DONE_MARKER" ++ sqs ++ "\n"

/-- Values that occur in the dict returned by execute. -/
inductive PyValue where
  | str : String → PyValue
  | int : Int → PyValue
  | bool : Bool → PyValue
deriving DecidableEq

/-- Lookup of a key in a Python-style dict represented as an association
list. -/
def lookupKey (d : List (String × PyValue)) (k : String) : Option PyValue :=
  match d with
  | [] => none
  | kv :: rest => if kv.1 = k then some kv.2 else lookupKey rest k

/-- Everything observable about one execute call: the payload written to
the nc stdin, the process handle it was written to, the resolved working
directory and timeout, the returned dict, and the environment state
afterwards. -/
structure ExecCall where
  payload : String
  usedProcess : Nat
  resolvedCwd : String
  resolvedTimeout : Int
  result : List (String × PyValue)
  finalState : EnvState
deriving DecidableEq

/-- Embedding of SidecarEnvironment.execute (sidecar.py lines 76 to 109).
The or-defaulting of cwd and timeout, the guard on the nc process, the
payload construction, the read loop and the marker split follow the source
line by line; the trace parameter supplies the observations the read loop
would make on the nc process. -/
def execute (cfg : SidecarEnvironmentConfig) (st : EnvState) (command : String)
    (cwd : String) (timeout : Option Int) (trace : List LoopStep) :
    Except String ExecCall :=
  let cwd2 := if cwd = "" then cfg.cwd else cwd
  let timeout2 := match timeout with
    | none => cfg.timeout
    | some t => if t = 0 then cfg.timeout else t
  match st.nc_process with
  | none => Except.error "nc process not started"
  | some p =>
    Except.ok
      ⟨full_command command cwd2, p, cwd2, timeout2,
        [("output", PyValue.str (decodeOutput (readLoop trace "").1)),
         ("returncode", PyValue.int 0)],
        st⟩

/-- Steps cleanup can take on the nc process. -/
inductive CleanupAction where
  | terminate
  | wait
  | kill
  | logError
deriving DecidableEq

/-- How the underlying process reacts to termination: terminate and wait
succeed within the five-second grace period, wait raises TimeoutExpired, or
some other exception is raised.  All three cases are caught by the source,
which is why cleanup below is a total function: it never raises. -/
inductive TermBehavior where
  | graceful
  | waitTimesOut
  | raisesOther
deriving DecidableEq

/-- Embedding of SidecarEnvironment.cleanup (sidecar.py lines 111 to 123):
when a process is present, terminate it, wait up to the grace period,
escalate to kill on TimeoutExpired, log any other error, and clear the
handle; when no process is present, do nothing.  Returns the new state and
the list of actions taken on the process. -/
def cleanup (st : EnvState) (beh : TermBehavior) : EnvState × List CleanupAction :=
  match st.nc_process with
  | none => (st, [])
  | some _ =>
    let acts := match beh with
      | TermBehavior.graceful => [CleanupAction.terminate, CleanupAction.wait]
      | TermBehavior.waitTimesOut => [CleanupAction.terminate, CleanupAction.wait, CleanupAction.kill]
      | TermBehavior.raisesOther => [CleanupAction.terminate, CleanupAction.logError]
    (⟨none⟩, acts)

/-- Result dict of an execute call, the empty dict on error. -/
def execResult (e : Except String ExecCall) : List (String × PyValue) :=
  match e with
  | Except.ok c => c.result
  | Except.error _ => []

/-- Final environment state of an execute call. -/
def execFinal (e : Except String ExecCall) : EnvState :=
  match e with
  | Except.ok c => c.finalState
  | Except.error _ => ⟨none⟩

/-- Process handle an execute call wrote to, none on error. -/
def execUsed (e : Except String ExecCall) : Option Nat :=
  match e with
  | Except.ok c => some c.usedProcess
  | Except.error _ => none

/-- Concrete configuration used by witnesses and counterexamples. -/
def cfg0 : SidecarEnvironmentConfig := ⟨"/", 30⟩

/-- Concrete open state used by witnesses and counterexamples. -/
def st1 : EnvState := ⟨some 1⟩

/-- Trace on which the read loop reaches the deadline after one partial
chunk that never contains the marker. -/
def trace_dl : List LoopStep := [⟨true, none, "partial"⟩, ⟨false, none, ""⟩]

/-- Trace of a successful command whose reply carries the marker. -/
def trace_ok : List LoopStep := [⟨true, none, "hi\n" ++ marker ++ "\n"⟩]

/-- Safe characters are never a single quote. -/
lemma safe_ne_sqc {c : Char} (h : isSafeChar c = true) : ¬ (c = sqc) := by
  intro he
  subst he
  exact absurd h (by decide)

/-- Safe characters are never a double quote. -/
lemma safe_ne_dqc {c : Char} (h : isSafeChar c = true) : ¬ (c = dqc) := by
  intro he
  subst he
  exact absurd h (by decide)

/-- Safe characters are never word breaks. -/
lemma safe_not_break {c : Char} (h : isSafeChar c = true) : ¬ (isWordBreak c = true) := by
  intro hw
  simp only [isWordBreak, Bool.or_eq_true, decide_eq_true_eq] at hw
  rcases hw with ((((((((h1 | h1) | h1) | h1) | h1) | h1) | h1) | h1) | h1) | h1 <;>
    subst h1 <;> exact absurd h (by decide)

/-- A list of safe characters is consumed verbatim by the word scanner. -/
lemma scan_safe (cs : List Char) : ∀ acc : List Char,
    (∀ c ∈ cs, isSafeChar c = true) →
    scanWord QMode.norm cs acc = some (acc.reverse ++ cs) := by
  induction cs with
  | nil =>
    intro acc _
    simp [scanWord]
  | cons c cs ih =>
    intro acc hsafe
    have hc : isSafeChar c = true := hsafe c (List.mem_cons_self c cs)
    have hrest : ∀ x ∈ cs, isSafeChar x = true := fun x hx => hsafe x (List.mem_cons_of_mem c hx)
    simp only [scanWord]
    rw [if_neg (safe_ne_sqc hc), if_neg (safe_ne_dqc hc), if_neg (safe_not_break hc)]
    rw [ih (c :: acc) hrest]
    simp

/-- Scanning the quote-rewritten characters from inside a single-quoted
region, up to the closing quote, recovers the original characters. -/
lemma scan_insq_quoted (cs : List Char) : ∀ acc : List Char,
    scanWord QMode.insq (quoteChars cs ++ [sqc]) acc = some (acc.reverse ++ cs) := by
  induction cs with
  | nil =>
    intro acc
    simp [quoteChars, scanWord]
  | cons c cs ih =>
    intro acc
    by_cases hc : c = sqc
    · subst hc
      have h1 : ¬ (dqc = sqc) := by decide
      have h2 : ¬ (sqc = dqc) := by decide
      have step : scanWord QMode.insq (quoteChars (sqc :: cs) ++ [sqc]) acc =
          scanWord QMode.insq (quoteChars cs ++ [sqc]) (sqc :: acc) := by
        simp [quoteChars, scanWord, h1, h2]
      rw [step, ih (sqc :: acc)]
      simp
    · have step : scanWord QMode.insq (quoteChars (c :: cs) ++ [sqc]) acc =
          scanWord QMode.insq (quoteChars cs ++ [sqc]) (c :: acc) := by
        simp [quoteChars, scanWord, hc]
      rw [step, ih (c :: acc)]
      simp

/-- Quoting theorem: for every string, the result of shlex_quote is read by
the shell as exactly one word whose value is the original string. -/
lemma shlex_quote_single_word (s : String) :
    scanWord QMode.norm (shlex_quote s).data [] = some s.data := by
  unfold shlex_quote
  by_cases h0 : s.data = []
  · rw [if_pos h0, h0]
    decide
  · rw [if_neg h0]
    by_cases h1 : s.data.all isSafeChar
    · rw [if_pos h1]
      have := scan_safe s.data [] (fun c hc => List.all_eq_true.mp h1 c hc)
      simpa using this
    · rw [if_neg h1]
      show scanWord QMode.norm (sqc :: (quoteChars s.data ++ [sqc])) [] = some s.data
      simp only [scanWord, if_pos rfl]
      simpa using scan_insq_quoted s.data []

/-- Cleanup always leaves the environment without a live nc process. -/
lemma cleanup_clears (st : EnvState) (beh : TermBehavior) :
    (cleanup st beh).1.nc_process = none := by
  cases st with
  | mk ncp =>
    cases ncp with
    | none => rfl
    | some p => rfl

/-- Cleanup on a state without a live nc process does nothing. -/
lemma cleanup_none (st : EnvState) (h : st.nc_process = none) (beh : TermBehavior) :
    cleanup st beh = (st, []) := by
  cases st with
  | mk ncp =>
    cases h
    rfl

/-- C6: the encoder shell-escapes the working directory before
interpolating it into the payload, and for every working-directory string
the escaped value is read by the shell as a single token whose value is the
original directory, so a directory value cannot inject an additional shell
command; the conjunct at the concrete directory containing a single quote,
spaces and a command separator shows the injection attempt stays inside one
token. -/
theorem C6_cwd_shell_escaped :
    (∀ command cwd, ∃ rest, full_command command cwd = "cd " ++ shlex_quote cwd ++ rest) ∧
    (∀ cwd : String, scanWord QMode.norm (shlex_quote cwd).data [] = some cwd.data) ∧
    scanWord QMode.norm (shlex_quote ("a" ++ sqs ++ "; rm -rf /; " ++ sqs)).data [] =
      some ("a" ++ sqs ++ "; rm -rf /; " ++ sqs).data := by
  refine ⟨?_, shlex_quote_single_word, shlex_quote_single_word _⟩
  intro command cwd
  refine ⟨"; " ++ command ++ "; echo " ++ sqs ++ "COMMAND_DONE_MARKER" ++ sqs ++ "\n", ?_⟩
  simp [full_command, String.append_assoc]

/-- C7: for every command and working directory, the payload written by
execute is exactly the line cd dir semicolon command semicolon echo of the
quoted completion sentinel, with the directory shell-escaped and the line
terminated by a newline; the sentinel echoed is the same marker string the
read loop scans for. -/
theorem C7_payload_format (cfg : SidecarEnvironmentConfig) (st : EnvState)
    (command cwd : String) (timeout : Option Int) (trace : List LoopStep) (p : Nat)
    (h : st.nc_process = some p) :
    ∃ call, execute cfg st command cwd timeout trace = Except.ok call ∧
      call.payload = "cd " ++ shlex_quote call.resolvedCwd ++ "; " ++ command ++
        "; echo " ++ sqs ++ marker ++ sqs ++ "\n" := by
  cases st with
  | mk ncp =>
    cases h
    exact ⟨_, rfl, rfl⟩

/-- Witness for C7 at a concrete call. -/
theorem C7_payload_format_witness :
    ∃ call, execute cfg0 st1 "echo hi" "/tmp" none [] = Except.ok call ∧
      call.payload = "cd " ++ shlex_quote call.resolvedCwd ++ "; " ++ "echo hi" ++
        "; echo " ++ sqs ++ marker ++ sqs ++ "\n" :=
  C7_payload_format cfg0 st1 "echo hi" "/tmp" none [] 1 rfl

/-- C5: cleanup is idempotent: every call leaves no live nc process, any
call on an already cleared state is a no-op that takes no action, and the
first effective call attempts graceful termination first, escalating to
kill exactly when the wait bounded by the grace period expires.  Cleanup is
embedded as a total function because the source catches every exception,
so no call propagates one to the caller. -/
theorem C5_cleanup_idempotent (st : EnvState) (beh : TermBehavior) :
    (cleanup st beh).1.nc_process = none ∧
    (∀ beh2, cleanup (cleanup st beh).1 beh2 = ((cleanup st beh).1, [])) ∧
    (st.nc_process.isSome = true →
      ((cleanup st beh).2.head? = some CleanupAction.terminate ∧
        (beh = TermBehavior.waitTimesOut → CleanupAction.kill ∈ (cleanup st beh).2) ∧
        (beh = TermBehavior.graceful → CleanupAction.kill ∉ (cleanup st beh).2))) := by
  refine ⟨cleanup_clears st beh,
    fun beh2 => cleanup_none _ (cleanup_clears st beh) beh2, ?_⟩
  intro hs
  cases st with
  | mk ncp =>
    cases ncp with
    | none => exact absurd hs (by decide)
    | some p =>
      cases beh with
      | graceful =>
        refine ⟨rfl, ?_, ?_⟩
        · intro h
          exact absurd h (by decide)
        · intro _
          show CleanupAction.kill ∉ [CleanupAction.terminate, CleanupAction.wait]
          decide
      | waitTimesOut =>
        refine ⟨rfl, ?_, ?_⟩
        · intro _
          show CleanupAction.kill ∈ [CleanupAction.terminate, CleanupAction.wait, CleanupAction.kill]
          decide
        · intro h
          exact absurd h (by decide)
      | raisesOther =>
        refine ⟨rfl, ?_, ?_⟩
        · intro h
          exact absurd h (by decide)
        · intro h
          exact absurd h (by decide)

/-- Witness for C5 at a concrete state and behaviour. -/
theorem C5_cleanup_idempotent_witness :
    (cleanup st1 TermBehavior.waitTimesOut).1.nc_process = none ∧
    cleanup (cleanup st1 TermBehavior.waitTimesOut).1 TermBehavior.graceful =
      ((cleanup st1 TermBehavior.waitTimesOut).1, []) ∧
    (cleanup st1 TermBehavior.waitTimesOut).2.head? = some CleanupAction.terminate ∧
    CleanupAction.kill ∈ (cleanup st1 TermBehavior.waitTimesOut).2 := by
  obtain ⟨h1, h2, h3⟩ := C5_cleanup_idempotent st1 TermBehavior.waitTimesOut
  exact ⟨h1, h2 TermBehavior.graceful, (h3 (by decide)).1, (h3 (by decide)).2.1 rfl⟩

/-- C9: calling execute when no nc process is open, whether never started
or cleared by a previous cleanup, raises a hard failure to the caller
instead of returning an outcome dict. -/
theorem C9_execute_no_session (cfg : SidecarEnvironmentConfig)
    (command cwd : String) (timeout : Option Int) (trace : List LoopStep) :
    (∀ st : EnvState, st.nc_process = none →
      execute cfg st command cwd timeout trace = Except.error "nc process not started") ∧
    (∀ (st : EnvState) (beh : TermBehavior),
      execute cfg (cleanup st beh).1 command cwd timeout trace =
        Except.error "nc process not started") := by
  have base : ∀ st : EnvState, st.nc_process = none →
      execute cfg st command cwd timeout trace = Except.error "nc process not started" := by
    intro st h
    cases st with
    | mk ncp =>
      cases h
      rfl
  exact ⟨base, fun st beh => base _ (cleanup_clears st beh)⟩

/-- Witness for C9 at concrete calls. -/
theorem C9_execute_no_session_witness :
    execute cfg0 ⟨none⟩ "ls" "" none [] = Except.error "nc process not started" ∧
    execute cfg0 (cleanup st1 TermBehavior.graceful).1 "ls" "" none [] =
      Except.error "nc process not started" :=
  ⟨(C9_execute_no_session cfg0 "ls" "" none []).1 ⟨none⟩ rfl,
   (C9_execute_no_session cfg0 "ls" "" none []).2 st1 TermBehavior.graceful⟩

/-- C10: a falsy per-call override is replaced by the configured default:
an empty cwd argument resolves to the configured working directory, a
missing or zero timeout argument resolves to the configured timeout, and
non-empty cwd or non-zero timeout arguments are honoured as given. -/
theorem C10_falsy_defaults (cfg : SidecarEnvironmentConfig) (st : EnvState)
    (command cwd : String) (t : Int) (trace : List LoopStep) (p : Nat)
    (h : st.nc_process = some p) :
    (∃ call, execute cfg st command "" (some t) trace = Except.ok call ∧
      call.resolvedCwd = cfg.cwd) ∧
    (∃ call, execute cfg st command cwd none trace = Except.ok call ∧
      call.resolvedTimeout = cfg.timeout) ∧
    (∃ call, execute cfg st command cwd (some 0) trace = Except.ok call ∧
      call.resolvedTimeout = cfg.timeout) ∧
    (cwd ≠ "" → ∃ call, execute cfg st command cwd (some t) trace = Except.ok call ∧
      call.resolvedCwd = cwd) ∧
    (t ≠ 0 → ∃ call, execute cfg st command cwd (some t) trace = Except.ok call ∧
      call.resolvedTimeout = t) := by
  cases st with
  | mk ncp =>
    cases h
    refine ⟨⟨_, rfl, by simp⟩, ⟨_, rfl, rfl⟩, ⟨_, rfl, by simp⟩, ?_, ?_⟩
    · intro hcwd
      refine ⟨_, rfl, ?_⟩
      show (if cwd = "" then cfg.cwd else cwd) = cwd
      rw [if_neg hcwd]
    · intro ht
      refine ⟨_, rfl, ?_⟩
      show (if t = 0 then cfg.timeout else t) = t
      rw [if_neg ht]

/-- Witness for C10 at concrete calls. -/
theorem C10_falsy_defaults_witness :
    (∃ call, execute cfg0 st1 "ls" "" (some 7) [] = Except.ok call ∧
      call.resolvedCwd = cfg0.cwd) ∧
    (∃ call, execute cfg0 st1 "ls" "/tmp" none [] = Except.ok call ∧
      call.resolvedTimeout = cfg0.timeout) ∧
    (∃ call, execute cfg0 st1 "ls" "/tmp" (some 0) [] = Except.ok call ∧
      call.resolvedTimeout = cfg0.timeout) ∧
    (∃ call, execute cfg0 st1 "ls" "/tmp" (some 7) [] = Except.ok call ∧
      call.resolvedCwd = "/tmp") ∧
    (∃ call, execute cfg0 st1 "ls" "/tmp" (some 7) [] = Except.ok call ∧
      call.resolvedTimeout = 7) := by
  obtain ⟨h1, h2, h3, h4, h5⟩ := C10_falsy_defaults cfg0 st1 "ls" "/tmp" 7 [] 1 rfl
  exact ⟨h1, h2, h3, h4 (by decide), h5 (by decide)⟩

/-- When the read loop stops because the deadline test failed, the
accumulated output cannot contain the marker: the loop would have stopped
with markerFound first. -/
lemma readLoop_deadline_no_marker (trace : List LoopStep) : ∀ acc : String,
    containsMarker acc = false →
    (readLoop trace acc).2 = StopReason.deadline →
    containsMarker (readLoop trace acc).1 = false := by
  induction trace with
  | nil =>
    intro acc h h2
    simp [readLoop] at h2
  | cons step rest ih =>
    intro acc h h2
    simp only [readLoop] at h2 ⊢
    by_cases hw : step.withinDeadline = false
    · rw [if_pos hw] at h2 ⊢
      exact h
    · rw [if_neg hw] at h2 ⊢
      by_cases hp : step.pollResult.isSome = true
      · rw [if_pos hp] at h2
        simp at h2
      · rw [if_neg hp] at h2 ⊢
        by_cases he : step.chunk = ""
        · rw [if_pos he] at h2
          simp at h2
        · rw [if_neg he] at h2 ⊢
          by_cases hm : containsMarker (acc ++ step.chunk) = true
          · rw [if_pos hm] at h2
            simp at h2
          · rw [if_neg hm] at h2 ⊢
            exact ih (acc ++ step.chunk) (by simpa using hm) h2

/-- Trace whose reply carries a plausible exit-code marker line before the
completion marker. -/
def trace_exit7 : List LoopStep := [⟨true, none, "hi\nEXIT_CODE:7\n" ++ marker ++ "\n"⟩]

/-- Trace whose reply has leading whitespace before the output and then the
completion marker. -/
def trace_pad : List LoopStep := [⟨true, none, "  hi\n" ++ marker⟩]

/-- C1 fails as stated: on a request whose read loop reaches the deadline
without ever observing the marker, the returned dict has no timed_out key
at all, no exit_code key, and carries returncode zero instead of the
sentinel minus one. -/
theorem C1_counterexample :
    (readLoop trace_dl "").2 = StopReason.deadline ∧
    lookupKey (execResult (execute cfg0 st1 "sleep 100" "" none trace_dl)) "timed_out" = none ∧
    lookupKey (execResult (execute cfg0 st1 "sleep 100" "" none trace_dl)) "exit_code" = none ∧
    lookupKey (execResult (execute cfg0 st1 "sleep 100" "" none trace_dl)) "returncode" =
      some (PyValue.int 0) := by
  decide

/-- C1 (amended): when the read loop reaches the deadline without observing
the marker, execute returns a dict holding exactly the partial bytes
received so far under the output key (undecorated, because the marker
branch is not taken) and the constant returncode zero; no timed_out flag
and no exit_code field exist, and the session state is left unchanged. -/
theorem C1_amended_deadline_outcome (cfg : SidecarEnvironmentConfig) (st : EnvState)
    (command cwd : String) (timeout : Option Int) (trace : List LoopStep) (p : Nat)
    (h : st.nc_process = some p)
    (hdl : (readLoop trace "").2 = StopReason.deadline) :
    ∃ call, execute cfg st command cwd timeout trace = Except.ok call ∧
      call.result = [("output", PyValue.str (readLoop trace "").1),
        ("returncode", PyValue.int 0)] ∧
      lookupKey call.result "timed_out" = none ∧
      lookupKey call.result "exit_code" = none ∧
      call.finalState = st := by
  have hcm : containsMarker (readLoop trace "").1 = false :=
    readLoop_deadline_no_marker trace "" (by decide) hdl
  cases st with
  | mk ncp =>
    cases h
    refine ⟨_, rfl, ?_, ?_, ?_, rfl⟩
    · show [("output", PyValue.str (decodeOutput (readLoop trace "").1)),
        ("returncode", PyValue.int 0)] = _
      rw [decodeOutput, if_neg (by simp [hcm])]
    · show lookupKey [("output", PyValue.str (decodeOutput (readLoop trace "").1)),
        ("returncode", PyValue.int 0)] "timed_out" = none
      simp only [lookupKey]
      rw [if_neg (by decide), if_neg (by decide)]
    · show lookupKey [("output", PyValue.str (decodeOutput (readLoop trace "").1)),
        ("returncode", PyValue.int 0)] "exit_code" = none
      simp only [lookupKey]
      rw [if_neg (by decide), if_neg (by decide)]

/-- Witness for the amended C1 at a concrete deadline trace. -/
theorem C1_amended_deadline_outcome_witness :
    ∃ call, execute cfg0 st1 "sleep 100" "" none trace_dl = Except.ok call ∧
      call.result = [("output", PyValue.str (readLoop trace_dl "").1),
        ("returncode", PyValue.int 0)] ∧
      lookupKey call.result "timed_out" = none ∧
      lookupKey call.result "exit_code" = none ∧
      call.finalState = st1 :=
  C1_amended_deadline_outcome cfg0 st1 "sleep 100" "" none trace_dl 1 rfl (by decide)

/-- C2 fails as stated: on a successful call the returned dict has exactly
the keys output and returncode, not the three keys output, exit_code and
timed_out. -/
theorem C2_counterexample :
    (execResult (execute cfg0 st1 "echo hi" "" none trace_ok)).map Prod.fst =
      ["output", "returncode"] ∧
    lookupKey (execResult (execute cfg0 st1 "echo hi" "" none trace_ok)) "exit_code" = none ∧
    lookupKey (execResult (execute cfg0 st1 "echo hi" "" none trace_ok)) "timed_out" = none := by
  decide

/-- C2 (amended): for every execution request against an open session, the
value returned by execute is a dict with exactly the two keys output, a
string, and returncode, the integer zero. -/
theorem C2_amended_result_shape (cfg : SidecarEnvironmentConfig) (st : EnvState)
    (command cwd : String) (timeout : Option Int) (trace : List LoopStep) (p : Nat)
    (h : st.nc_process = some p) :
    ∃ call, execute cfg st command cwd timeout trace = Except.ok call ∧
      call.result.map Prod.fst = ["output", "returncode"] ∧
      (∃ s, lookupKey call.result "output" = some (PyValue.str s)) ∧
      lookupKey call.result "returncode" = some (PyValue.int 0) := by
  cases st with
  | mk ncp =>
    cases h
    refine ⟨_, rfl, rfl, ⟨decodeOutput (readLoop trace "").1, ?_⟩, ?_⟩
    · show lookupKey [("output", PyValue.str (decodeOutput (readLoop trace "").1)),
        ("returncode", PyValue.int 0)] "output" = _
      simp [lookupKey]
    · show lookupKey [("output", PyValue.str (decodeOutput (readLoop trace "").1)),
        ("returncode", PyValue.int 0)] "returncode" = _
      simp only [lookupKey]
      rw [if_neg (by decide)]
      simp

/-- Witness for the amended C2 at a concrete call. -/
theorem C2_amended_result_shape_witness :
    ∃ call, execute cfg0 st1 "echo hi" "" none trace_ok = Except.ok call ∧
      call.result.map Prod.fst = ["output", "returncode"] ∧
      (∃ s, lookupKey call.result "output" = some (PyValue.str s)) ∧
      lookupKey call.result "returncode" = some (PyValue.int 0) :=
  C2_amended_result_shape cfg0 st1 "echo hi" "" none trace_ok 1 rfl

/-- C3 fails as stated: on a reply that carries an exit-code marker line
announcing status seven before the completion marker, execute neither
parses the integer after the marker nor returns it: the marker line stays
verbatim inside the output and the returned code is the constant zero. -/
theorem C3_counterexample :
    containsSub ("EXIT_CODE:").data (readLoop trace_exit7 "").1.data = true ∧
    lookupKey (execResult (execute cfg0 st1 "false" "" none trace_exit7)) "returncode" =
      some (PyValue.int 0) ∧
    lookupKey (execResult (execute cfg0 st1 "false" "" none trace_exit7)) "exit_code" = none ∧
    lookupKey (execResult (execute cfg0 st1 "false" "" none trace_exit7)) "output" =
      some (PyValue.str ("hi\nEXIT_CODE:7")) := by
  decide

/-- C3 (amended): decoding recovers only the bytes before the completion
marker as output; no exit-status marker is scanned and no exit status is
parsed: the code entry of the returned dict is the constant zero for every
command, working directory, timeout and reply. -/
theorem C3_amended_no_exit_parsing (cfg : SidecarEnvironmentConfig) (st : EnvState)
    (command cwd : String) (timeout : Option Int) (trace : List LoopStep) (p : Nat)
    (h : st.nc_process = some p) :
    ∃ call, execute cfg st command cwd timeout trace = Except.ok call ∧
      lookupKey call.result "output" =
        some (PyValue.str (decodeOutput (readLoop trace "").1)) ∧
      lookupKey call.result "returncode" = some (PyValue.int 0) ∧
      lookupKey call.result "exit_code" = none := by
  cases st with
  | mk ncp =>
    cases h
    refine ⟨_, rfl, ?_, ?_, ?_⟩
    · show lookupKey [("output", PyValue.str (decodeOutput (readLoop trace "").1)),
        ("returncode", PyValue.int 0)] "output" = _
      simp [lookupKey]
    · show lookupKey [("output", PyValue.str (decodeOutput (readLoop trace "").1)),
        ("returncode", PyValue.int 0)] "returncode" = _
      simp only [lookupKey]
      rw [if_neg (by decide)]
      simp
    · show lookupKey [("output", PyValue.str (decodeOutput (readLoop trace "").1)),
        ("returncode", PyValue.int 0)] "exit_code" = none
      simp only [lookupKey]
      rw [if_neg (by decide), if_neg (by decide)]

/-- Witness for the amended C3 at a concrete reply announcing status seven. -/
theorem C3_amended_no_exit_parsing_witness :
    ∃ call, execute cfg0 st1 "false" "" none trace_exit7 = Except.ok call ∧
      lookupKey call.result "output" =
        some (PyValue.str (decodeOutput (readLoop trace_exit7 "").1)) ∧
      lookupKey call.result "returncode" = some (PyValue.int 0) ∧
      lookupKey call.result "exit_code" = none :=
  C3_amended_no_exit_parsing cfg0 st1 "false" "" none trace_exit7 1 rfl

/-- C4 fails as stated: after a request whose read loop reaches the
deadline, the nc process is still alive in the environment state, and the
next execute call writes to that very same process handle rather than to a
freshly opened connection. -/
theorem C4_counterexample :
    (readLoop trace_dl "").2 = StopReason.deadline ∧
    execFinal (execute cfg0 st1 "sleep 100" "" none trace_dl) = st1 ∧
    (execFinal (execute cfg0 st1 "sleep 100" "" none trace_dl)).nc_process = some 1 ∧
    execUsed (execute cfg0 (execFinal (execute cfg0 st1 "sleep 100" "" none trace_dl))
      "echo hi" "" none trace_ok) = some 1 := by
  decide

/-- C4 (amended): on deadline exceeded the underlying nc process is not
terminated and the session is not discarded: execute leaves the
environment state unchanged, so the next execute call runs on exactly the
session that timed out. -/
theorem C4_amended_session_reused (cfg : SidecarEnvironmentConfig) (st : EnvState)
    (command cwd : String) (timeout : Option Int) (trace : List LoopStep)
    (command2 cwd2 : String) (timeout2 : Option Int) (trace2 : List LoopStep) (p : Nat)
    (h : st.nc_process = some p)
    (hdl : (readLoop trace "").2 = StopReason.deadline) :
    ∃ call, execute cfg st command cwd timeout trace = Except.ok call ∧
      call.finalState = st ∧ call.usedProcess = p ∧
      ∃ call2, execute cfg call.finalState command2 cwd2 timeout2 trace2 = Except.ok call2 ∧
        call2.usedProcess = p := by
  cases st with
  | mk ncp =>
    cases h
    exact ⟨_, rfl, rfl, rfl, _, rfl, rfl⟩

/-- Witness for the amended C4 at a concrete deadline trace followed by a
second command. -/
theorem C4_amended_session_reused_witness :
    ∃ call, execute cfg0 st1 "sleep 100" "" none trace_dl = Except.ok call ∧
      call.finalState = st1 ∧ call.usedProcess = 1 ∧
      ∃ call2, execute cfg0 call.finalState "echo hi" "" none trace_ok = Except.ok call2 ∧
        call2.usedProcess = 1 :=
  C4_amended_session_reused cfg0 st1 "sleep 100" "" none trace_dl
    "echo hi" "" none trace_ok 1 rfl (by decide)

/-- C8 fails as stated: on a reply whose output part starts with leading
whitespace, the decoder strips both ends, so the decoded output differs
from the bytes before the marker with only trailing whitespace trimmed. -/
theorem C8_counterexample :
    containsMarker ("  hi\n" ++ marker) = true ∧
    decodeOutput ("  hi\n" ++ marker) = "hi" ∧
    specRstrip (beforeMarker ("  hi\n" ++ marker)) = "  hi" ∧
    decodeOutput ("  hi\n" ++ marker) ≠ specRstrip (beforeMarker ("  hi\n" ++ marker)) := by
  decide

/-- C8 (amended): for every accumulated reply containing the completion
marker, the output entry of the dict returned by execute is the bytes
before the first marker occurrence with both leading and trailing
whitespace trimmed. -/
theorem C8_amended_strip_both_ends (cfg : SidecarEnvironmentConfig) (st : EnvState)
    (command cwd : String) (timeout : Option Int) (trace : List LoopStep) (p : Nat)
    (h : st.nc_process = some p)
    (hm : containsMarker (readLoop trace "").1 = true) :
    ∃ call, execute cfg st command cwd timeout trace = Except.ok call ∧
      lookupKey call.result "output" =
        some (PyValue.str (pyStrip (beforeMarker (readLoop trace "").1))) := by
  cases st with
  | mk ncp =>
    cases h
    refine ⟨_, rfl, ?_⟩
    show lookupKey [("output", PyValue.str (decodeOutput (readLoop trace "").1)),
      ("returncode", PyValue.int 0)] "output" = _
    rw [decodeOutput, if_pos hm]
    simp [lookupKey]

/-- Witness for the amended C8 at a concrete padded reply. -/
theorem C8_amended_strip_both_ends_witness :
    ∃ call, execute cfg0 st1 "echo hi" "" none trace_pad = Except.ok call ∧
      lookupKey call.result "output" =
        some (PyValue.str (pyStrip (beforeMarker (readLoop trace_pad "").1))) :=
  C8_amended_strip_both_ends cfg0 st1 "echo hi" "" none trace_pad 1 rfl (by decide)
